import Mathlib

/-!
Verification of the ingestion pipeline of `load.py` (header normalization,
schema mapping, row coercion, bulk loading) against its specification.

The Python/pandas source is shallowly embedded: DataFrames become lists of
header values and rows of cells, pandas column operations become explicit
Lean functions on those lists, and the one operation that can raise
(`Series.astype("Int64")` on non-integral floats) is modelled in `Except`.
-/

set_option maxRecDepth 4096

/-- A Python value that can sit in a raw DataFrame cell (or be a raw column
label).  `str` is a Python string, `num` a finite Python number (`int` or
`float`; the rational payload abstracts the IEEE value, whose exact printing
no claim depends on), `nan` is the float NaN missing marker, `noneV` is
Python `None`, and `NA` is the pandas scalar `pd.NA`. -/
inductive PyCell where
  | str (s : String)
  | num (q : ℚ)
  | nan
  | noneV
  | NA
deriving DecidableEq, Repr

/-- Python whitespace characters recognised by `str.strip` / `str.split`
(ASCII range, which is what the source data can contain). -/
def isWS (c : Char) : Bool :=
  c = ' ' || c = '\t' || c = '\n' || c = '\r' || c = '\x0b' || c = '\x0c'

/-- Model of Python `str.strip()` on the character list of a string. -/
def pyStripChars (l : List Char) : List Char :=
  ((l.dropWhile isWS).reverse.dropWhile isWS).reverse

/-- Model of Python `str.split()` (split on whitespace runs, dropping empty
tokens); `acc` accumulates the current token in reverse. -/
def pySplitAux : List Char → List Char → List (List Char)
  | [], acc => if acc.isEmpty then [] else [acc.reverse]
  | c :: cs, acc =>
    if isWS c then
      if acc.isEmpty then pySplitAux cs [] else acc.reverse :: pySplitAux cs []
    else
      pySplitAux cs (c :: acc)

/-- Python `s.split()` with an empty accumulator. -/
def pySplit (l : List Char) : List (List Char) := pySplitAux l []

/-- Python `" ".join(tokens)`. -/
def joinSpace (ts : List (List Char)) : List Char :=
  (List.intersperse [' '] ts).flatten

/-- Python `s.replace(" ", "_")` (single-character replace is a map). -/
def replUnderscore (c : Char) : Char := if c = ' ' then '_' else c

/-- The loop body of `normalize_cols` applied to one already-stringified
label: `s.strip()`, then `" ".join(s.split())`, then `s.lower()`, then
`s.replace(" ", "_")` (`load.py` lines 27-29). -/
def normalizeOne (s : String) : String :=
  String.mk ((((joinSpace (pySplit (pyStripChars s.data))).map
    Char.toLower)).map replUnderscore)

/-- Model of Python `str(v)` on the cell values; the numeric rendering is an
abstraction of Python's `repr` for numbers (no claim depends on its exact
digits), the other renderings are the exact CPython / pandas strings. -/
def pyStr : PyCell → String
  | .str s => s
  | .num q => toString q
  | .nan => "nan"
  | .noneV => "None"
  | .NA => "<NA>"

/-- `normalize_cols` (`load.py` lines 24-31): stringify each label, strip,
collapse internal whitespace, lowercase, replace spaces by underscores,
appending the results to `out` in a loop. -/
def normalize_cols (cols : List PyCell) : List String :=
  cols.foldl (fun out c => out ++ [normalizeOne (pyStr c)]) []

/-- `TARGET_COLS` (`load.py` lines 9-21): the fixed target schema order. -/
def TARGET_COLS : List String :=
  ["outlet", "date", "day", "guest_count", "category", "quantity",
   "cost_price", "selling_price", "total_sales", "total_cost_price", "profit"]

/-- Python's substring test `needle in hay` on strings. -/
def pyIn (needle hay : String) : Bool := decide (needle.data <:+: hay.data)

/-- Python `tgt.split("_")[0]`: the token before the first underscore
(the whole string when there is none). -/
def tokenBefore (t : String) : String :=
  String.mk (t.data.takeWhile (fun c => c ≠ '_'))

/-- Python `tgt.split("_")[-1]`: the token after the last underscore
(the whole string when there is none). -/
def tokenAfter (t : String) : String :=
  String.mk ((t.data.reverse.takeWhile (fun c => c ≠ '_')).reverse)

/-- The approximate-match test of `map_dataframe` (`load.py` lines 47-52):
`tgt in c or c in tgt or tgt.split("_")[0] in c or tgt.split("_")[-1] in c`. -/
def approxPred (tgt c : String) : Bool :=
  pyIn tgt c || pyIn c tgt || pyIn (tokenBefore tgt) c || pyIn (tokenAfter tgt) c

/-- The mapping decision of `map_dataframe` for one target column
(`load.py` lines 41-54): exact match first, else the first header in
original column order passing `approxPred`. -/
def mapOne (cols : List String) (tgt : String) : Option String :=
  if cols.contains tgt then some tgt else cols.find? (approxPred tgt)

/-- The `col_map` dict built by the loop of `map_dataframe` (`load.py`
lines 39-54), as an association list in insertion order over a target
list `ts`. -/
def buildOver (cols : List String) : List String → List (String × String)
  | [] => []
  | tgt :: rest =>
    match mapOne cols tgt with
    | some src => (tgt, src) :: buildOver cols rest
    | none => buildOver cols rest

/-- The `col_map` dict of `map_dataframe` over the real target schema. -/
def buildColMap (cols : List String) : List (String × String) :=
  buildOver cols TARGET_COLS

/-- Reference mapping semantics, written from the claim: if `t` equals some
normalized header exactly, `t` maps to `t`; otherwise `t` maps to the first
header `c` in original column order satisfying any of the four substring
predicates tested in order; otherwise `t` is unmapped. -/
def refMapping (cols : List String) (t : String) : Option String :=
  if t ∈ cols then some t
  else
    cols.find? (fun c =>
      pyIn t c || pyIn c t || pyIn (tokenBefore t) c || pyIn (tokenAfter t) c)

/-- A calendar date as held by `datetime.date` after
`pd.to_datetime(...).dt.date`. -/
structure SDate where
  year : Nat
  month : Nat
  day : Nat
deriving DecidableEq, Repr

/-- Gregorian leap-year test. -/
def isLeap (y : Nat) : Bool := (y % 4 = 0 && y % 100 ≠ 0) || y % 400 = 0

/-- Number of days in a month of the Gregorian calendar. -/
def daysInMonth (y m : Nat) : Nat :=
  if m = 2 then (if isLeap y then 29 else 28)
  else if m = 4 ∨ m = 6 ∨ m = 9 ∨ m = 11 then 30
  else 31

/-- Numeric value of a digit string. -/
def digitsVal (l : List Char) : Nat :=
  l.foldl (fun a c => a * 10 + (c.toNat - 48)) 0

/-- Day-first assembly of the three digit groups of a candidate date string:
day and month of one or two digits, a four-digit year, calendar-valid, and
inside the `pd.Timestamp` year range (approximated as 1678-2261; outside it
`to_datetime` coerces to `NaT`). -/
def mkDayFirst (dp mp yp : List Char) : Option SDate :=
  if dp.length = 0 ∨ 2 < dp.length ∨ mp.length = 0 ∨ 2 < mp.length ∨
      yp.length ≠ 4 then none
  else
    let d := digitsVal dp
    let m := digitsVal mp
    let y := digitsVal yp
    if 1 ≤ m ∧ m ≤ 12 ∧ 1 ≤ d ∧ d ≤ daysInMonth y m ∧ 1678 ≤ y ∧ y ≤ 2261 then
      some ⟨y, m, d⟩
    else none

/-- Model of `pd.to_datetime(..., dayfirst=True, errors="coerce")` on a date
string of the numeric day-first form named by the source comment
("parse date column (DD-MM-YYYY)", `load.py` line 65): day, month and year
separated by `-` or `/`, interpreted in that order; anything else is treated
as unparseable and coerced to `NaT` (modelled as `none`). -/
def parseDayFirst (l : List Char) : Option SDate :=
  let dp := l.takeWhile Char.isDigit
  match l.dropWhile Char.isDigit with
  | s1 :: r1 =>
    if s1 = '-' ∨ s1 = '/' then
      let mp := r1.takeWhile Char.isDigit
      match r1.dropWhile Char.isDigit with
      | s2 :: r2 =>
        if (s2 = '-' ∨ s2 = '/') ∧ r2.all Char.isDigit then mkDayFirst dp mp r2
        else none
      | [] => none
    else none
  | _ => none

/-- Conversion from days since the Unix epoch to a calendar date
(Hinnant's civil-from-days algorithm, as performed by `Timestamp.date()`). -/
def civilFromDays (z0 : Int) : SDate :=
  let z := z0 + 719468
  let era := Int.fdiv z 146097
  let doe := z - era * 146097
  let yoe := Int.fdiv
    (doe - Int.fdiv doe 1460 + Int.fdiv doe 36524 - Int.fdiv doe 146096) 365
  let y := yoe + era * 400
  let doy := doe - (365 * yoe + Int.fdiv yoe 4 - Int.fdiv yoe 100)
  let mp := Int.fdiv (5 * doy + 2) 153
  let d := doy - Int.fdiv (153 * mp + 2) 5 + 1
  let m := if mp < 10 then mp + 3 else mp - 9
  let yr := if m ≤ 2 then y + 1 else y
  ⟨yr.toNat, m.toNat, d.toNat⟩

/-- Nanoseconds per day. -/
def nsPerDay : Int := 86400000000000

/-- The int64 magnitude bound `2 ^ 63`. -/
def int64Lim : Int := Int.ofNat (2 ^ 63)

/-- Truncation of a rational toward zero (C-style cast of a float). -/
def ratTruncInt (q : ℚ) : Int := Int.tdiv q.num q.den

/-- Full model of the date coercion `pd.to_datetime(col, dayfirst=True,
errors="coerce").dt.date` (`load.py` line 66) on one cell: strings are
parsed day-first; raw numbers are interpreted as nanoseconds since the
epoch (pandas semantics for numeric cells of an object column), coerced to
`NaT` outside the int64 timestamp range; missing markers give `NaT`. -/
def toDatetimeDayfirst : PyCell → Option SDate
  | .str s => parseDayFirst (pyStripChars s.data)
  | .num q =>
    let ns := ratTruncInt q
    if ns < -int64Lim ∨ int64Lim ≤ ns then none
    else some (civilFromDays (Int.fdiv ns nsPerDay))
  | .nan => none
  | .noneV => none
  | .NA => none

/-- Exponent suffix of a Python float literal (empty, or `e`/`E` with an
optional sign and digits). -/
def parseExpPart : List Char → Option Int
  | [] => some 0
  | c :: rest =>
    if c = 'e' ∨ c = 'E' then
      match rest with
      | '+' :: ds =>
        if ds ≠ [] ∧ ds.all Char.isDigit then some (digitsVal ds : Int) else none
      | '-' :: ds =>
        if ds ≠ [] ∧ ds.all Char.isDigit then some (-(digitsVal ds : Int)) else none
      | ds =>
        if ds ≠ [] ∧ ds.all Char.isDigit then some (digitsVal ds : Int) else none
    else none

/-- The rational `(mNum / mDen) * 10 ^ e`, built with integer arithmetic. -/
def applyExp (mNum mDen : Nat) : Int → ℚ
  | .ofNat k => mkRat (mNum * 10 ^ k) mDen
  | .negSucc k => mkRat mNum (mDen * 10 ^ (k + 1))

/-- Unsigned mantissa (digits with an optional decimal point, at least one
digit) followed by an optional exponent. -/
def parseMantissa (l : List Char) : Option ℚ :=
  let ip := l.takeWhile Char.isDigit
  let rest := l.dropWhile Char.isDigit
  match rest with
  | '.' :: rest2 =>
    let fp := rest2.takeWhile Char.isDigit
    let rest3 := rest2.dropWhile Char.isDigit
    if ip.isEmpty ∧ fp.isEmpty then none
    else
      (parseExpPart rest3).map
        (applyExp (digitsVal ip * 10 ^ fp.length + digitsVal fp) (10 ^ fp.length))
  | _ =>
    if ip.isEmpty then none
    else (parseExpPart rest).map (applyExp (digitsVal ip) 1)

/-- A Python decimal number literal with an optional sign. -/
def parsePyNumber (l : List Char) : Option ℚ :=
  match l with
  | '+' :: rest => parseMantissa rest
  | '-' :: rest => (parseMantissa rest).map Rat.neg
  | _ => parseMantissa l

/-- Model of `pd.to_numeric(col, errors="coerce")` (`load.py` lines 69-78)
on one cell: numeric strings (stripped of surrounding whitespace) parse to
their value, numbers pass through, everything else coerces to NaN
(modelled as `none`; infinities are outside the modelled domain). -/
def toNumeric : PyCell → Option ℚ
  | .str s => parsePyNumber (pyStripChars s.data)
  | .num q => some q
  | .nan => none
  | .noneV => none
  | .NA => none

/-- A cell of the canonical output table: a typed present value or the
explicit absent marker (`NaT` / `<NA>` / `NaN` of the respective dtypes). -/
inductive Value where
  | date (d : SDate)
  | int (n : Int)
  | num (q : ℚ)
  | text (s : String)
  | na
deriving DecidableEq, Repr

deriving instance DecidableEq for Except

/-- Date column coercion of one cell. -/
def dateCoerce (c : PyCell) : Value :=
  match toDatetimeDayfirst c with
  | some d => .date d
  | none => .na

/-- Decimal column coercion of one cell. -/
def numCoerce (c : PyCell) : Value :=
  match toNumeric c with
  | some q => .num q
  | none => .na

/-- The pandas error message of `safe_cast` when `.astype("Int64")` meets a
float that is not exactly an int64. -/
def castErrMsg : String := "cannot safely cast non-equivalent float64 to int64"

/-- Model of `.astype("Int64")` on one float cell (`load.py` line 70): NaN
becomes the nullable-integer missing value, an integral in-range float is
cast, and any other float raises `TypeError` (pandas `safe_cast`). -/
def int64Cell : Option ℚ → Except String Value
  | none => .ok .na
  | some q =>
    if q.den = 1 then
      if -int64Lim ≤ q.num ∧ q.num < int64Lim then .ok (.int q.num)
      else .error castErrMsg
    else .error castErrMsg

/-- Model of the text cleanup `col.astype(str).str.strip().replace({"nan":
pd.NA})` (`load.py` lines 81-82) on one cell: stringify (so float NaN
prints `"nan"`, `None` prints `"None"` and `pd.NA` prints `"<NA>"`), strip,
and turn the exact string `"nan"` into the missing value. -/
def textClean (c : PyCell) : Value :=
  let s := String.mk (pyStripChars (pyStr c).data)
  if s = "nan" then .na else .text s

/-- The integer-typed target columns (`load.py` line 69). -/
def intCols : List String := ["guest_count", "quantity"]

/-- The decimal-typed target columns (`load.py` lines 71-77). -/
def decCols : List String :=
  ["cost_price", "selling_price", "total_sales", "total_cost_price", "profit"]

/-- The text-typed target columns (`load.py` line 81). -/
def textCols : List String := ["outlet", "day", "category"]

/-- Per-column coercion of `map_dataframe` (`load.py` lines 65-82); the
final branch is never reached for a member of `TARGET_COLS`. -/
def coerceCol (t : String) (col : List PyCell) : Except String (List Value) :=
  if t = "date" then .ok (col.map dateCoerce)
  else if intCols.contains t then (col.map toNumeric).mapM int64Cell
  else if decCols.contains t then .ok (col.map numCoerce)
  else if textCols.contains t then .ok (col.map textClean)
  else .ok (col.map fun _ => .na)

/-- A raw pandas DataFrame: column labels (arbitrary Python values) and a
rectangular list of rows.  Labels are assumed to normalize to distinct
headers (duplicate labels would make `df[src]` fail, which no claim
exercises). -/
structure PyDataFrame where
  headers : List PyCell
  rows : List (List PyCell)
deriving Repr

/-- Selection `df[src]` of a source column by normalized label (first
occurrence); the default is never hit for rectangular rows and a label
present in the headers. -/
def dfColumn (df : PyDataFrame) (src : String) : List PyCell :=
  let j := (normalize_cols df.headers).findIdx (fun h => h == src)
  df.rows.map (fun r => r.getD j PyCell.nan)

/-- `col_map.get(tgt)` (`load.py` line 59) against the dict built by the
mapping loop. -/
def colMapOf (df : PyDataFrame) (t : String) : Option String :=
  List.lookup t (buildColMap (normalize_cols df.headers))

/-- True when at least one target column found a source header. -/
def anyMapped (df : PyDataFrame) : Bool :=
  TARGET_COLS.any (fun t => (colMapOf df t).isSome)

/-- Number of rows of the output frame: pandas only adopts the input's row
index when some mapped source column (a Series) is assigned; if every
target is unmapped, all the scalar `pd.NA` assignments land on an empty
frame and the output has zero rows. -/
def outRowCount (df : PyDataFrame) : Nat :=
  if anyMapped df then df.rows.length else 0

/-- Position of the first mapped target column (length of `TARGET_COLS`
when none is mapped). -/
def firstMappedIdx (df : PyDataFrame) : Nat :=
  TARGET_COLS.findIdx (fun t => (colMapOf df t).isSome)

/-- Position of a target column in the schema order. -/
def targetIdx (t : String) : Nat := TARGET_COLS.findIdx (fun u => u == t)

/-- The column contents of `out` after the build loop (`load.py` lines
56-63), before coercion.  A mapped target takes its source column.  An
unmapped target before the first mapped one was assigned `pd.NA` while the
frame still had an empty index, so when the first Series assignment adopts
the row index these columns are refilled with float NaN; an unmapped target
after it receives the broadcast `pd.NA` scalar. -/
def preCol (df : PyDataFrame) (t : String) : List PyCell :=
  match colMapOf df t with
  | some src => dfColumn df src
  | none =>
    List.replicate (outRowCount df)
      (if targetIdx t < firstMappedIdx df then PyCell.nan else PyCell.NA)

/-- One fully processed output column of `map_dataframe`. -/
def mapCol (df : PyDataFrame) (t : String) : Except String (List Value) :=
  coerceCol t (preCol df t)

/-- `map_dataframe` (`load.py` lines 34-84): normalize headers, map target
columns, build the output in target order and coerce each column family;
the single failure mode (the `Int64` cast) aborts the whole call, modelled
in `Except`. -/
def map_dataframe (df : PyDataFrame) :
    Except String (List (String × List Value)) :=
  TARGET_COLS.mapM (fun t => (mapCol df t).map (fun vs => (t, vs)))

/-- A named output column of a `map_dataframe` result. -/
def resultCol (df : PyDataFrame) (t : String) : Except String (List Value) :=
  (map_dataframe df).map (fun out => (List.lookup t out).getD [])

/-- The failing input of C1: a table whose single column maps exactly to
`quantity` and holds the non-integral numeric string `"2.5"`. -/
def exC1 : PyDataFrame := ⟨[.str "quantity"], [[.str "2.5"]]⟩

/-- Two-digit zero-padded decimal rendering. -/
def pad2 (n : Nat) : String := if n < 10 then "0" ++ toString n else toString n

/-- Four-digit zero-padded decimal rendering. -/
def pad4 (n : Nat) : String :=
  if n < 10 then "000" ++ toString n
  else if n < 100 then "00" ++ toString n
  else if n < 1000 then "0" ++ toString n
  else toString n

/-- Model of `datetime.date.isoformat` / `str(date)`, which is how a
`datetime.date` object in an object column is rendered by `to_csv`
(`load.py` line 92; the `date_format` argument applies the same shape). -/
def pyDateIsoformat (d : SDate) : String :=
  pad4 d.year ++ "-" ++ pad2 d.month ++ "-" ++ pad2 d.day

/-- Reference rendering written from the claim: ISO-8601 `YYYY-MM-DD` with
zero-padded four-digit year and two-digit month and day. -/
def iso8601Ref (d : SDate) : String :=
  pad4 d.year ++ "-" ++ pad2 d.month ++ "-" ++ pad2 d.day

/-- Minimal CSV quoting as applied by `DataFrame.to_csv`. -/
def csvEscape (s : String) : String :=
  if s.data.any (fun c => c = ',' || c = '"' || c = '\n' || c = '\r') then
    "\"" ++ String.mk ((s.data.map
      (fun c => if c = '"' then ['"', '"'] else [c])).flatten) ++ "\""
  else s

/-- CSV rendering of one canonical cell by `to_csv` (`load.py` line 92):
missing values render as the empty field (`na_rep` default), dates as ISO,
integers and numbers by their decimal form, text with minimal quoting. -/
def csvCell : Value → String
  | .na => ""
  | .date d => pyDateIsoformat d
  | .int n => toString n
  | .num q => toString q
  | .text s => csvEscape s

/-- The CSV header row written by `to_csv(header=True)`. -/
def csvHeaderLine : String := String.intercalate "," TARGET_COLS

/-- Row `i` of the output table, read across the columns. -/
def tableRowAt (out : List (String × List Value)) (i : Nat) : List Value :=
  out.map (fun p => p.2.getD i Value.na)

/-- Row count of an output table (all columns have equal length). -/
def nRowsOut (out : List (String × List Value)) : Nat :=
  ((out.head?).map (fun p => p.2.length)).getD 0

/-- The in-memory CSV buffer built by `copy_df_to_postgres` (`load.py`
lines 91-92): a header line followed by one comma-joined line per row. -/
def toCsvLines (out : List (String × List Value)) : List String :=
  csvHeaderLine ::
    (List.range (nRowsOut out)).map
      (fun i => String.intercalate "," ((tableRowAt out i).map csvCell))

/-- The C4 example: a table whose single column maps to `date` and holds
the day-first cell `"05-03-2024"`. -/
def exC4 : PyDataFrame := ⟨[.str "Date"], [[.str "05-03-2024"]]⟩

/-- A date column with an unparseable string, an empty string and a NaN. -/
def exC4bad : PyDataFrame := ⟨[.str "Date"], [[.str "hello"], [.str ""], [.nan]]⟩

/-- A command issued on the psycopg2 connection by the Bulk Loader. -/
inductive PgCmd where
  | copyExpertCmd (sql : String) (payload : List String)
  | commitCmd
deriving DecidableEq, Repr

/-- The `COPY ... FROM STDIN WITH CSV HEADER` statement (`load.py` line 95). -/
def copySql : String :=
  "COPY public.\"TRP\"(" ++ String.intercalate ", " TARGET_COLS
    ++ ") FROM STDIN WITH CSV HEADER"

/-- `copy_df_to_postgres` (`load.py` lines 87-97) as the trace of commands
it issues: it serializes the table, runs `cur.copy_expert(sql, buf)` and
then `conn.commit()`; when the COPY raises (outcome `error`), the exception
propagates before the commit statement is reached, so no commit is issued. -/
def copy_df_to_postgres (out : List (String × List Value))
    (copyOutcome : Except String Unit) : List PgCmd × Except String Unit :=
  match copyOutcome with
  | .ok _ => ([.copyExpertCmd copySql (toCsvLines out), .commitCmd], .ok ())
  | .error e => ([.copyExpertCmd copySql (toCsvLines out)], .error e)

/-- Modelled from the spec: the target store (an external collaborator,
spec section 6) executes the bulk-ingest command inside the open
transaction, so copied rows sit in a per-transaction buffer and become
visible in the committed state only when a commit command arrives. -/
structure Store where
  committed : List String

/-- Modelled from the spec: transactional execution of a command trace
against the store; a COPY appends the payload's data lines (the CSV header
line is consumed by `WITH CSV HEADER`) to the transaction buffer, a commit
publishes the buffer. -/
def runCmds (s : Store) (buffer : List String) : List PgCmd → Store
  | [] => s
  | .copyExpertCmd _ payload :: rest => runCmds s (buffer ++ payload.drop 1) rest
  | .commitCmd :: rest => runCmds ⟨s.committed ++ buffer⟩ [] rest

/-- `True` exactly on successful results. -/
def isOkE {ε α : Type} : Except ε α → Bool
  | .ok _ => true
  | .error _ => false

/-- The successful output table of `map_dataframe` (empty on failure). -/
def outOf (df : PyDataFrame) : List (String × List Value) :=
  ((map_dataframe df).toOption).getD []

/-- The C2/C5 witness table: one `outlet` header, one row, so every other
target column is unmapped and sits after the first mapped position. -/
def exC2 : PyDataFrame := ⟨[.str "outlet"], [[.str "x"]]⟩

/-- The C5 counterexample table: the header `zzz` matches no target column,
so every output column is built by a scalar assignment on an empty frame. -/
def exC5 : PyDataFrame := ⟨[.str "zzz"], [[.str "v"]]⟩

section NormalizeLemmas

/-- Tokens produced by `pySplitAux` contain no whitespace characters
(provided the accumulated partial token has none). -/
theorem pySplitAux_no_ws (l : List Char) :
    ∀ acc, (∀ c ∈ acc, isWS c = false) →
      ∀ t ∈ pySplitAux l acc, ∀ c ∈ t, isWS c = false := by
  induction l with
  | nil =>
    intro acc hacc t ht c hc
    unfold pySplitAux at ht
    split at ht
    · simp at ht
    · simp only [List.mem_singleton] at ht
      subst ht
      exact hacc c (List.mem_reverse.mp hc)
  | cons a as ih =>
    intro acc hacc t ht c hc
    unfold pySplitAux at ht
    split at ht
    · split at ht
      · exact ih [] (by simp) t ht c hc
      · rcases List.mem_cons.mp ht with h1 | h1
        · subst h1
          exact hacc c (List.mem_reverse.mp hc)
        · exact ih [] (by simp) t h1 c hc
    · rename_i hws
      refine ih (a :: acc) ?_ t ht c hc
      intro d hd
      rcases List.mem_cons.mp hd with hd | hd
      · subst hd; simpa using hws
      · exact hacc d hd

/-- On a whitespace-free input, `pySplitAux` returns the single token formed
by the accumulator followed by the input (or nothing when both are empty). -/
theorem pySplitAux_all_non_ws (l : List Char) :
    ∀ acc, (∀ c ∈ l, isWS c = false) →
      pySplitAux l acc =
        if (acc.reverse ++ l).isEmpty then [] else [acc.reverse ++ l] := by
  induction l with
  | nil =>
    intro acc _
    simp [pySplitAux, List.isEmpty_iff]
  | cons a as ih =>
    intro acc hl
    have ha : isWS a = false := hl a (by simp)
    simp only [pySplitAux, ha, if_false]
    rw [ih (a :: acc) (fun c hc => hl c (by simp [hc]))]
    simp [List.append_assoc]

/-- On a nonempty whitespace-free list, `pySplit` yields that one token. -/
theorem pySplit_all_non_ws (l : List Char) (hl : ∀ c ∈ l, isWS c = false)
    (hne : l ≠ []) : pySplit l = [l] := by
  unfold pySplit
  rw [pySplitAux_all_non_ws l [] hl]
  simp [List.isEmpty_iff, hne]

/-- `dropWhile` does nothing on a list whose members all fail the test. -/
theorem dropWhile_of_all_false {α : Type} (p : α → Bool) (l : List α)
    (h : ∀ c ∈ l, p c = false) : l.dropWhile p = l := by
  cases l with
  | nil => rfl
  | cons a as => simp [List.dropWhile_cons, h a (by simp)]

/-- `pyStripChars` does nothing on a whitespace-free list. -/
theorem pyStripChars_of_no_ws (l : List Char)
    (h : ∀ c ∈ l, isWS c = false) : pyStripChars l = l := by
  unfold pyStripChars
  rw [dropWhile_of_all_false isWS l h,
    dropWhile_of_all_false isWS l.reverse (fun c hc => h c (List.mem_reverse.mp hc)),
    List.reverse_reverse]

/-- A map that fixes every member of a list fixes the list. -/
theorem map_id_of_mem {α : Type} (f : α → α) (l : List α)
    (h : ∀ c ∈ l, f c = c) : l.map f = l := by
  induction l with
  | nil => rfl
  | cons a as ih =>
    simp only [List.map_cons, h a (by simp), List.cons.injEq, true_and]
    exact ih (fun c hc => h c (by simp [hc]))

/-- Members of an interspersed list are the separator or original members. -/
theorem mem_intersperse {α : Type} (sep : α) :
    ∀ (l : List α) (x : α), x ∈ List.intersperse sep l → x = sep ∨ x ∈ l := by
  intro l
  induction l with
  | nil => intro x hx; simp at hx
  | cons a as ih =>
    intro x hx
    cases as with
    | nil => simp at hx; simp [hx]
    | cons b bs =>
      rw [List.intersperse_cons_cons] at hx
      rcases List.mem_cons.mp hx with hx | hx
      · right; simp [hx]
      · rcases List.mem_cons.mp hx with hx | hx
        · left; exact hx
        · rcases ih x hx with hx | hx
          · left; exact hx
          · right; simp [hx]

/-- Every character of `joinSpace ts` is a space or a token character. -/
theorem mem_joinSpace (ts : List (List Char)) (c : Char)
    (hc : c ∈ joinSpace ts) : c = ' ' ∨ ∃ t ∈ ts, c ∈ t := by
  unfold joinSpace at hc
  rcases List.mem_flatten.mp hc with ⟨piece, hpiece, hcp⟩
  rcases mem_intersperse [' '] ts piece hpiece with h | h
  · subst h; left; simpa using hcp
  · right; exact ⟨piece, h, hcp⟩

/-- ASCII uppercase images of `Char.toLower` are never whitespace. -/
theorem toLower_image_not_ws :
    ∀ n, n < 91 → 65 ≤ n → isWS (Char.ofNat (n + 32)) = false := by decide

/-- ASCII uppercase images of `Char.toLower` are fixed by `Char.toLower`. -/
theorem toLower_image_fixed :
    ∀ n, n < 91 → 65 ≤ n → Char.toLower (Char.ofNat (n + 32)) = Char.ofNat (n + 32) := by
  decide

/-- Unfolding of `Char.toLower` when the character is ASCII uppercase. -/
theorem toLower_pos (c : Char) (hc : c.toNat ≥ 65 ∧ c.toNat ≤ 90) :
    c.toLower = Char.ofNat (c.toNat + 32) := by
  show (if c.toNat ≥ 65 ∧ c.toNat ≤ 90 then Char.ofNat (c.toNat + 32) else c)
      = Char.ofNat (c.toNat + 32)
  exact if_pos hc

/-- Unfolding of `Char.toLower` when the character is not ASCII uppercase. -/
theorem toLower_neg (c : Char) (hc : ¬(c.toNat ≥ 65 ∧ c.toNat ≤ 90)) :
    c.toLower = c := by
  show (if c.toNat ≥ 65 ∧ c.toNat ≤ 90 then Char.ofNat (c.toNat + 32) else c) = c
  exact if_neg hc

/-- `Char.toLower` sends non-whitespace characters to non-whitespace ones. -/
theorem toLower_not_ws (c : Char) (h : isWS c = false) :
    isWS c.toLower = false := by
  by_cases hc : c.toNat ≥ 65 ∧ c.toNat ≤ 90
  · rw [toLower_pos c hc]
    exact toLower_image_not_ws c.toNat (Nat.lt_succ_of_le hc.2) hc.1
  · rw [toLower_neg c hc]
    exact h

/-- `Char.toLower` is idempotent. -/
theorem toLower_idem (c : Char) : c.toLower.toLower = c.toLower := by
  by_cases hc : c.toNat ≥ 65 ∧ c.toNat ≤ 90
  · rw [toLower_pos c hc]
    exact toLower_image_fixed c.toNat (Nat.lt_succ_of_le hc.2) hc.1
  · rw [toLower_neg c hc, toLower_neg c hc]

/-- Characters of a normalized header: not whitespace, lowercase-stable,
and not a space (so the second normalization pass fixes them). -/
theorem normalizeOne_chars (s : String) :
    ∀ c ∈ (normalizeOne s).data,
      isWS c = false ∧ c.toLower = c ∧ replUnderscore c = c := by
  intro c hc
  have hdata : (normalizeOne s).data
      = (((joinSpace (pySplit (pyStripChars s.data))).map Char.toLower)).map
          replUnderscore := rfl
  rw [hdata] at hc
  rcases List.mem_map.mp hc with ⟨c1, hc1, hrepl⟩
  rcases List.mem_map.mp hc1 with ⟨c0, hc0, hlower⟩
  have hc0' : c0 = ' ' ∨ isWS c0 = false := by
    rcases mem_joinSpace _ c0 hc0 with h | ⟨t, ht, hct⟩
    · left; exact h
    · right
      exact pySplitAux_no_ws _ [] (by simp) t ht c0 hct
  have key : isWS c = false ∧ c.toLower = c ∧ replUnderscore c = c := by
    rcases hc0' with h | h
    · -- c0 is the join separator: it lowers to itself and becomes '_'
      subst h
      have hl : (' ' : Char).toLower = ' ' := by decide
      rw [hl] at hlower
      subst hlower
      have hc' : c = '_' := by simpa [replUnderscore] using hrepl.symm
      subst hc'
      refine ⟨by decide, by decide, by decide⟩
    · -- c0 is a token character: no whitespace survives lowering
      have hlow : isWS c0.toLower = false := toLower_not_ws c0 h
      have hnsp : c0.toLower ≠ ' ' := by
        intro hsp
        rw [hsp] at hlow
        simp [isWS] at hlow
      have hcc : c = c0.toLower := by
        rw [← hlower] at hrepl
        simpa [replUnderscore, hnsp] using hrepl.symm
      subst hcc
      refine ⟨hlow, toLower_idem c0, ?_⟩
      · simp [replUnderscore, hnsp]
  exact key

/-- C7 core: `normalizeOne` is idempotent. -/
theorem normalizeOne_idem (s : String) :
    normalizeOne (normalizeOne s) = normalizeOne s := by
  set r := (normalizeOne s).data with hr
  have hchars := normalizeOne_chars s
  rw [← hr] at hchars
  have hnws : ∀ c ∈ r, isWS c = false := fun c hc => (hchars c hc).1
  by_cases hne : r = []
  · -- the normalized header is empty; normalizing "" gives ""
    have h1 : normalizeOne s = String.mk r := by
      cases s; rfl
    rw [h1, hne]
    rfl
  · have h1 : normalizeOne s = String.mk r := by cases s; rfl
    rw [h1]
    unfold normalizeOne
    have hdat : (String.mk r).data = r := rfl
    rw [hdat, pyStripChars_of_no_ws r hnws, pySplit_all_non_ws r hnws hne]
    have hjoin : joinSpace [r] = r := by simp [joinSpace]
    rw [hjoin, map_id_of_mem Char.toLower r (fun c hc => (hchars c hc).2.1),
      map_id_of_mem replUnderscore r (fun c hc => (hchars c hc).2.2)]

end NormalizeLemmas

/-- C7: Header normalization is idempotent: for every string `s`, normalizing
the result of normalizing `s` yields the same string as normalizing `s`
once (`normalize_cols` loop body, `load.py` lines 24-31). -/
theorem c7_normalize_idempotent (s : String) :
    normalizeOne (normalizeOne s) = normalizeOne s :=
  normalizeOne_idem s

section MapperLemmas

/-- Targets never visited are absent from the built dict. -/
theorem buildOver_not_mem (cols : List String) :
    ∀ ts t, t ∉ ts → List.lookup t (buildOver cols ts) = none := by
  intro ts
  induction ts with
  | nil => intro t _; rfl
  | cons a as ih =>
    intro t ht
    have hta : t ≠ a := fun h => ht (by simp [h])
    have htas : t ∉ as := fun h => ht (by simp [h])
    unfold buildOver
    cases hm : mapOne cols a with
    | none => exact ih t htas
    | some src =>
      show List.lookup t ((a, src) :: buildOver cols as) = none
      rw [show List.lookup t ((a, src) :: buildOver cols as)
          = List.lookup t (buildOver cols as) by
        simp [List.lookup, beq_eq_false_iff_ne.mpr hta]]
      exact ih t htas

/-- Looking a target up in the built dict recovers the per-target decision:
each key is written at most once and never revised. -/
theorem lookup_buildOver (cols : List String) :
    ∀ ts t, t ∈ ts → ts.Nodup → List.lookup t (buildOver cols ts) = mapOne cols t := by
  intro ts
  induction ts with
  | nil => intro t ht; simp at ht
  | cons a as ih =>
    intro t ht hnd
    rcases List.mem_cons.mp ht with h | h
    · subst h
      have htas : t ∉ as := (List.nodup_cons.mp hnd).1
      unfold buildOver
      cases hm : mapOne cols t with
      | none => exact buildOver_not_mem cols as t htas
      | some src =>
        show List.lookup t ((t, src) :: buildOver cols as) = some src
        simp [List.lookup]
    · have hta : t ≠ a := by
        intro he
        subst he
        exact (List.nodup_cons.mp hnd).1 h
      unfold buildOver
      cases hm : mapOne cols a with
      | none => exact ih t h (List.nodup_cons.mp hnd).2
      | some src =>
        show List.lookup t ((a, src) :: buildOver cols as) = mapOne cols t
        rw [show List.lookup t ((a, src) :: buildOver cols as)
            = List.lookup t (buildOver cols as) by
          simp [List.lookup, beq_eq_false_iff_ne.mpr hta]]
        exact ih t h (List.nodup_cons.mp hnd).2

/-- The per-target decision agrees with the claim's reference semantics. -/
theorem mapOne_eq_refMapping (cols : List String) (t : String) :
    mapOne cols t = refMapping cols t := by
  unfold mapOne refMapping approxPred
  by_cases h : t ∈ cols
  · have hc : cols.contains t = true := by simpa using h
    simp [h, hc]
  · have hc : cols.contains t = false := by simpa using h
    simp [h, hc]

/-- The target schema has no duplicate column names. -/
theorem target_cols_nodup : TARGET_COLS.Nodup := by decide

end MapperLemmas

/-- C3: For every list of normalized source headers and every target column,
the entry the Schema Mapper's `col_map` dict holds for that column equals
the reference semantics: exact match wins, otherwise the first header in
original order satisfying any of the four substring predicates, otherwise
unmapped; no entry is removed or revised once set. -/
theorem c3_mapper_matches_reference (cols : List String) (t : String)
    (h : t ∈ TARGET_COLS) :
    List.lookup t (buildColMap cols) = refMapping cols t := by
  rw [buildColMap, lookup_buildOver cols TARGET_COLS t h target_cols_nodup]
  exact mapOne_eq_refMapping cols t

/-- C3 witness: the spec's own example scenario, `"outlet_name"` headers and
target `outlet`, evaluated concretely through the mapper. -/
theorem c3_mapper_matches_reference_witness :
    "outlet" ∈ TARGET_COLS ∧
      List.lookup "outlet" (buildColMap ["outlet_name", "qty"]) =
        refMapping ["outlet_name", "qty"] "outlet" :=
  ⟨by decide, c3_mapper_matches_reference ["outlet_name", "qty"] "outlet" (by decide)⟩

/-- C9: There is a header list on which two distinct target columns are
silently mapped to the same source header: with the single header `"price"`,
both `cost_price` and `selling_price` map to it (`load.py` lines 45-54
perform no conflict detection). -/
theorem c9_conflicting_targets_same_source :
    List.lookup "cost_price" (buildColMap ["price"]) = some "price" ∧
      List.lookup "selling_price" (buildColMap ["price"]) = some "price" ∧
      "cost_price" ≠ "selling_price" := by
  refine ⟨?_, ?_, by decide⟩ <;> rfl

/-- C1: Refuted as stated — the Row Coercer does raise.  On a `quantity`
cell `"2.5"`, `pd.to_numeric` yields the float `2.5` and the subsequent
`.astype("Int64")` raises `TypeError: cannot safely cast non-equivalent
float64 to int64`, aborting the whole batch instead of degrading the cell
to absent (`load.py` line 70). -/
theorem c1_int64_cast_aborts_batch :
    map_dataframe exC1 = .error castErrMsg ∧ exC1.rows.length = 1 := by
  exact ⟨by decide, rfl⟩

/-- C4: The date column is parsed day-first (`"05-03-2024"` yields the date
2024-03-05 through the full pipeline), unparseable or absent cells yield
absent, and serialization renders every present date as ISO-8601
`YYYY-MM-DD` — both in the concrete COPY payload and cell-wise. -/
theorem c4_dayfirst_date_pipeline :
    resultCol exC4 "date" = .ok [Value.date ⟨2024, 3, 5⟩] ∧
      resultCol exC4bad "date" = .ok [Value.na, Value.na, Value.na] ∧
      (map_dataframe exC4).map toCsvLines =
        .ok [csvHeaderLine, ",2024-03-05,<NA>,,<NA>,,,,,,"] ∧
      ∀ d : SDate, csvCell (Value.date d) = iso8601Ref d := by
  refine ⟨by decide, by decide, by decide, fun d => rfl⟩

/-- C6: The bulk load is all-or-nothing: on a failing COPY no commit
command is ever issued and the store's committed rows are unchanged (zero
rows committed); on a successful COPY the trace is exactly the COPY
followed by the commit, which publishes precisely the serialized rows. -/
theorem c6_commit_only_after_copy (out : List (String × List Value))
    (e : String) (s : Store) :
    (copy_df_to_postgres out (.error e)).2 = .error e ∧
      PgCmd.commitCmd ∉ (copy_df_to_postgres out (.error e)).1 ∧
      (runCmds s [] (copy_df_to_postgres out (.error e)).1).committed
        = s.committed ∧
      (copy_df_to_postgres out (.ok ())).1
        = [.copyExpertCmd copySql (toCsvLines out), .commitCmd] ∧
      (runCmds s [] (copy_df_to_postgres out (.ok ())).1).committed
        = s.committed ++ (toCsvLines out).drop 1 := by
  refine ⟨rfl, ?_, rfl, rfl, ?_⟩
  · simp [copy_df_to_postgres]
  · simp [copy_df_to_postgres, runCmds]

section ShapeLemmas

/-- A successful `mapM` over `Except` preserves length. -/
theorem mapM_ok_length {ε α β : Type} (f : α → Except ε β) :
    ∀ (l : List α) (r : List β), l.mapM f = .ok r → r.length = l.length := by
  intro l
  induction l with
  | nil =>
    intro r h
    simp only [List.mapM_nil] at h
    cases h
    rfl
  | cons a as ih =>
    intro r h
    rw [List.mapM_cons] at h
    cases hfa : f a with
    | error e => rw [hfa] at h; simp [Bind.bind, Except.bind] at h
    | ok b =>
      rw [hfa] at h
      cases hmas : as.mapM f with
      | error e =>
        rw [hmas] at h
        simp [Bind.bind, Except.bind, pure, Except.pure] at h
      | ok bs =>
        rw [hmas] at h
        simp only [Bind.bind, Except.bind, pure, Except.pure] at h
        cases h
        simp [ih bs hmas]

/-- A successful `mapM` whose body pairs each element with a computed value
returns the elements as first components, each paired with a success of the
body. -/
theorem mapM_pair_ok {ε α β : Type} (g : α → Except ε β) :
    ∀ (ts : List α) (r : List (α × β)),
      ts.mapM (fun t => (g t).map (fun v => (t, v))) = .ok r →
      r.map Prod.fst = ts ∧ ∀ p ∈ r, g p.1 = .ok p.2 := by
  intro ts
  induction ts with
  | nil =>
    intro r h
    simp only [List.mapM_nil] at h
    cases h
    exact ⟨rfl, by intro p hp; simp at hp⟩
  | cons a as ih =>
    intro r h
    rw [List.mapM_cons] at h
    cases hga : g a with
    | error e =>
      rw [hga] at h
      simp [Except.map, Bind.bind, Except.bind] at h
    | ok b =>
      rw [hga] at h
      cases hmas : as.mapM (fun t => (g t).map (fun v => (t, v))) with
      | error e =>
        rw [hmas] at h
        simp [Except.map, Bind.bind, Except.bind, pure, Except.pure] at h
      | ok rs =>
        rw [hmas] at h
        simp only [Except.map, Bind.bind, Except.bind, pure, Except.pure] at h
        cases h
        rcases ih rs hmas with ⟨ih1, ih2⟩
        refine ⟨by simp [ih1], ?_⟩
        intro p hp
        rcases List.mem_cons.mp hp with hp | hp
        · subst hp; exact hga
        · exact ih2 p hp

/-- A `mapM` over a replicated cell that succeeds on it succeeds with the
replicated result. -/
theorem mapM_ok_replicate {ε α β : Type} (f : α → Except ε β) (x : α) (v : β)
    (hf : f x = .ok v) :
    ∀ n, (List.replicate n x).mapM f = .ok (List.replicate n v) := by
  intro n
  induction n with
  | zero => simp [List.mapM_nil]; rfl
  | succ k ih =>
    rw [List.replicate_succ, List.mapM_cons, hf, ih]
    simp [Bind.bind, Except.bind, pure, Except.pure, List.replicate_succ]

/-- Every branch of the per-column coercion preserves the column length. -/
theorem coerceCol_length (t : String) (col : List PyCell) (vs : List Value)
    (h : coerceCol t col = .ok vs) : vs.length = col.length := by
  unfold coerceCol at h
  split at h
  · cases h; simp
  · split at h
    · have := mapM_ok_length int64Cell (col.map toNumeric) vs h
      simpa using this
    · split at h
      · cases h; simp
      · split at h
        · cases h; simp
        · cases h; simp

/-- A mapped target column forces `anyMapped`. -/
theorem anyMapped_of_mapped (df : PyDataFrame) (t : String)
    (ht : t ∈ TARGET_COLS) (src : String) (hsrc : colMapOf df t = some src) :
    anyMapped df = true := by
  unfold anyMapped
  rw [List.any_eq_true]
  exact ⟨t, ht, by simp [hsrc]⟩

/-- Source column selection always yields one cell per input row. -/
theorem dfColumn_length (df : PyDataFrame) (src : String) :
    (dfColumn df src).length = df.rows.length := by
  simp [dfColumn]

/-- Every pre-coercion output column has the output row count as length. -/
theorem preCol_length (df : PyDataFrame) (t : String) (ht : t ∈ TARGET_COLS) :
    (preCol df t).length = outRowCount df := by
  unfold preCol
  cases hsrc : colMapOf df t with
  | none => simp
  | some src =>
    rw [dfColumn_length, outRowCount,
      if_pos (anyMapped_of_mapped df t ht src hsrc)]

/-- Every successfully coerced output column has the output row count as
length. -/
theorem mapCol_length (df : PyDataFrame) (t : String) (ht : t ∈ TARGET_COLS)
    (vs : List Value) (h : mapCol df t = .ok vs) :
    vs.length = outRowCount df := by
  unfold mapCol at h
  rw [coerceCol_length t (preCol df t) vs h]
  exact preCol_length df t ht

end ShapeLemmas

/-- C5 counterexample: on the table with the single unmatched header `zzz`
and one data row, every output column of `map_dataframe` has zero rows
while the input has one, refuting the unconditional row-count equality. -/
theorem c5_counterexample :
    (map_dataframe exC5).map (List.map (fun p => (p.1, p.2.length)))
        = .ok (TARGET_COLS.map (fun t => (t, 0))) ∧
      exC5.rows.length = 1 := by
  exact ⟨by decide, rfl⟩

/-- C5 (amended): whenever the Row Coercer returns, the output columns are
exactly the target schema in order and share the length `outRowCount`,
which equals the input row count when at least one target column is mapped
and is zero otherwise (pandas never adopts a row index if only scalars are
assigned). -/
theorem c5_shape_amended (df : PyDataFrame)
    (h : isOkE (map_dataframe df) = true) :
    (outOf df).map Prod.fst = TARGET_COLS ∧
      (∀ p ∈ outOf df, p.2.length = outRowCount df) ∧
      (anyMapped df = true → outRowCount df = df.rows.length) ∧
      (anyMapped df = false → outRowCount df = 0) := by
  cases hmo : map_dataframe df with
  | error e => rw [hmo] at h; simp [isOkE] at h
  | ok out =>
    have hmm : TARGET_COLS.mapM
        (fun t => (mapCol df t).map (fun vs => (t, vs))) = .ok out := hmo
    rcases mapM_pair_ok (mapCol df) TARGET_COLS out hmm with ⟨h1, h2⟩
    have houtOf : outOf df = out := by simp [outOf, hmo, Except.toOption]
    rw [houtOf]
    refine ⟨h1, ?_, fun ha => by simp [outRowCount, ha],
      fun ha => by simp [outRowCount, ha]⟩
    intro p hp
    have hmem : p.1 ∈ TARGET_COLS := by
      rw [← h1]
      exact List.mem_map_of_mem Prod.fst hp
    exact mapCol_length df p.1 hmem p.2 (h2 p hp)

/-- C5 witness: the amended shape theorem evaluated on the concrete table
`exC2` (headers `["outlet"]`, one row). -/
theorem c5_shape_amended_witness :
    (outOf exC2).map Prod.fst = TARGET_COLS ∧
      (∀ p ∈ outOf exC2, p.2.length = outRowCount exC2) ∧
      (anyMapped exC2 = true → outRowCount exC2 = exC2.rows.length) ∧
      (anyMapped exC2 = false → outRowCount exC2 = 0) :=
  c5_shape_amended exC2 (by decide)

section UnmappedLemmas

/-- Coercion of a replicated absent cell in the date column. -/
theorem coerceCol_date_rep (n : Nat) (c : PyCell) (hc : dateCoerce c = Value.na) :
    coerceCol "date" (List.replicate n c) = .ok (List.replicate n Value.na) := by
  simp [coerceCol, List.map_replicate, hc]

/-- Coercion of a replicated absent cell in an integer column. -/
theorem coerceCol_int_rep (t : String) (h1 : ¬ t = "date")
    (h2 : intCols.contains t = true) (n : Nat) (c : PyCell)
    (hc : toNumeric c = none) :
    coerceCol t (List.replicate n c) = .ok (List.replicate n Value.na) := by
  unfold coerceCol
  rw [if_neg h1, if_pos h2, List.map_replicate, hc]
  exact mapM_ok_replicate int64Cell none Value.na rfl n

/-- Coercion of a replicated absent cell in a decimal column. -/
theorem coerceCol_dec_rep (t : String) (h1 : ¬ t = "date")
    (h2 : ¬ intCols.contains t = true) (h3 : decCols.contains t = true)
    (n : Nat) (c : PyCell) (hc : numCoerce c = Value.na) :
    coerceCol t (List.replicate n c) = .ok (List.replicate n Value.na) := by
  unfold coerceCol
  rw [if_neg h1, if_neg h2, if_pos h3, List.map_replicate, hc]

/-- Coercion of a replicated cell in a text column. -/
theorem coerceCol_text_rep (t : String) (h1 : ¬ t = "date")
    (h2 : ¬ intCols.contains t = true) (h3 : ¬ decCols.contains t = true)
    (h4 : textCols.contains t = true) (n : Nat) (c : PyCell) :
    coerceCol t (List.replicate n c) = .ok (List.replicate n (textClean c)) := by
  unfold coerceCol
  rw [if_neg h1, if_neg h2, if_neg h3, if_pos h4, List.map_replicate]

end UnmappedLemmas

/-- C2 counterexample: with headers `["outlet"]` the target `day` is
unmapped, yet the resulting `day` column holds the present literal text
`"<NA>"` (the stringification of the broadcast `pd.NA` scalar), not the
absent value the claim promises for text-family columns. -/
theorem c2_counterexample :
    colMapOf exC2 "day" = none ∧
      resultCol exC2 "day" = .ok [Value.text "<NA>"] ∧
      Value.text "<NA>" ≠ Value.na := by
  exact ⟨by decide, by decide, by decide⟩

/-- C2 (amended): an unmapped target column never aborts the run; it is
all-absent when its family is date, integer or decimal, or when it precedes
the first mapped target (NaN refill); an unmapped text column at or after
the first mapped target instead holds the literal string `"<NA>"` in every
row. -/
theorem c2_unmapped_columns_amended (df : PyDataFrame) (t : String)
    (ht : t ∈ TARGET_COLS) (hm : colMapOf df t = none) :
    mapCol df t = .ok (List.replicate (outRowCount df) Value.na) ∨
      (textCols.contains t = true ∧ firstMappedIdx df ≤ targetIdx t ∧
        mapCol df t = .ok
          (List.replicate (outRowCount df) (Value.text "<NA>"))) := by
  have hpre : preCol df t =
      List.replicate (outRowCount df)
        (if targetIdx t < firstMappedIdx df then PyCell.nan else PyCell.NA) := by
    unfold preCol
    rw [hm]
  unfold mapCol
  rw [hpre]
  by_cases hlt : targetIdx t < firstMappedIdx df
  · rw [if_pos hlt]
    left
    fin_cases ht
    · rw [coerceCol_text_rep "outlet" (by decide) (by decide) (by decide)
        (by decide), show textClean PyCell.nan = Value.na by decide]
    · exact coerceCol_date_rep _ PyCell.nan (by decide)
    · rw [coerceCol_text_rep "day" (by decide) (by decide) (by decide)
        (by decide), show textClean PyCell.nan = Value.na by decide]
    · exact coerceCol_int_rep "guest_count" (by decide) (by decide) _
        PyCell.nan (by decide)
    · rw [coerceCol_text_rep "category" (by decide) (by decide) (by decide)
        (by decide), show textClean PyCell.nan = Value.na by decide]
    · exact coerceCol_int_rep "quantity" (by decide) (by decide) _
        PyCell.nan (by decide)
    · exact coerceCol_dec_rep "cost_price" (by decide) (by decide) (by decide)
        _ PyCell.nan (by decide)
    · exact coerceCol_dec_rep "selling_price" (by decide) (by decide)
        (by decide) _ PyCell.nan (by decide)
    · exact coerceCol_dec_rep "total_sales" (by decide) (by decide) (by decide)
        _ PyCell.nan (by decide)
    · exact coerceCol_dec_rep "total_cost_price" (by decide) (by decide)
        (by decide) _ PyCell.nan (by decide)
    · exact coerceCol_dec_rep "profit" (by decide) (by decide) (by decide)
        _ PyCell.nan (by decide)
  · rw [if_neg hlt]
    have hge : firstMappedIdx df ≤ targetIdx t := Nat.le_of_not_lt hlt
    fin_cases ht
    · right
      refine ⟨by decide, hge, ?_⟩
      rw [coerceCol_text_rep "outlet" (by decide) (by decide) (by decide)
        (by decide), show textClean PyCell.NA = Value.text "<NA>" by decide]
    · left
      exact coerceCol_date_rep _ PyCell.NA (by decide)
    · right
      refine ⟨by decide, hge, ?_⟩
      rw [coerceCol_text_rep "day" (by decide) (by decide) (by decide)
        (by decide), show textClean PyCell.NA = Value.text "<NA>" by decide]
    · left
      exact coerceCol_int_rep "guest_count" (by decide) (by decide) _
        PyCell.NA (by decide)
    · right
      refine ⟨by decide, hge, ?_⟩
      rw [coerceCol_text_rep "category" (by decide) (by decide) (by decide)
        (by decide), show textClean PyCell.NA = Value.text "<NA>" by decide]
    · left
      exact coerceCol_int_rep "quantity" (by decide) (by decide) _
        PyCell.NA (by decide)
    · left
      exact coerceCol_dec_rep "cost_price" (by decide) (by decide) (by decide)
        _ PyCell.NA (by decide)
    · left
      exact coerceCol_dec_rep "selling_price" (by decide) (by decide)
        (by decide) _ PyCell.NA (by decide)
    · left
      exact coerceCol_dec_rep "total_sales" (by decide) (by decide) (by decide)
        _ PyCell.NA (by decide)
    · left
      exact coerceCol_dec_rep "total_cost_price" (by decide) (by decide)
        (by decide) _ PyCell.NA (by decide)
    · left
      exact coerceCol_dec_rep "profit" (by decide) (by decide) (by decide)
        _ PyCell.NA (by decide)

/-- C2 witness: the amended theorem evaluated at the concrete table `exC2`
and target `day` (which lands in the text `"<NA>"` branch). -/
theorem c2_unmapped_columns_amended_witness :
    mapCol exC2 "day" = .ok (List.replicate (outRowCount exC2) Value.na) ∨
      (textCols.contains "day" = true ∧
        firstMappedIdx exC2 ≤ targetIdx "day" ∧
        mapCol exC2 "day" = .ok
          (List.replicate (outRowCount exC2) (Value.text "<NA>"))) :=
  c2_unmapped_columns_amended exC2 "day" (by decide) (by decide)

/-- The fold of `normalize_cols` is an append-map. -/
theorem foldl_append_map {α β : Type} (f : α → β) :
    ∀ (l : List α) (acc : List β),
      l.foldl (fun out c => out ++ [f c]) acc = acc ++ l.map f := by
  intro l
  induction l with
  | nil => intro acc; simp
  | cons a as ih =>
    intro acc
    simp only [List.foldl_cons, List.map_cons, ih (acc ++ [f a])]
    simp

/-- C10: `normalize_cols` is total over arbitrary header values: it
stringifies each value with `str(...)` and then normalizes the string,
raising no error (it is a total function of its input) and returning one
header per input value. -/
theorem c10_normalize_cols_total (l : List PyCell) :
    normalize_cols l = l.map (fun c => normalizeOne (pyStr c)) ∧
      (normalize_cols l).length = l.length := by
  have h : normalize_cols l = l.map (fun c => normalizeOne (pyStr c)) := by
    unfold normalize_cols
    simpa using foldl_append_map (fun c => normalizeOne (pyStr c)) l []
  exact ⟨h, by rw [h, List.length_map]⟩
